import Mathlib

/-!
Shallow embedding of the bongo cascade subsystem (cascade.go, collection.go)
and of the spec-level DiffTracker, with theorems settling the frozen claims.

Store operations are modelled by an explicit state `ExecSt` that records the
resulting store contents and the ordered trace of issued update operations.
Store-side failures are modelled by an oracle `Nat → Option Err` giving the
error returned by the i-th issued operation of a run; a failed operation
leaves the store unchanged.  Go panics are modelled by the `GoResult` type.
-/

namespace Bongo

/-- BSON scalar values appearing in queries, reference fields and data maps. -/
inductive BVal where
  | vnull
  | vbool (b : Bool)
  | vint (n : Int)
  | vstr (s : String)
  | vid (n : Nat)
deriving DecidableEq, Repr

/-- Embedding of `bson.M`: a finite map from keys to scalar values,
represented as an association list with first-key-wins lookup. -/
abbrev BsonM := List (String × BVal)

/-- Lookup of a key in an association list (first match wins). -/
def lookupKey {α : Type} : List (String × α) → String → Option α
  | [], _ => none
  | (k, v) :: rest, key => if k = key then some v else lookupKey rest key

/-- Map-style insertion: replaces the binding of `key` if present, appends
otherwise, mirroring assignment into a Go map. -/
def insertKey {α : Type} : List (String × α) → String → α → List (String × α)
  | [], key, v => [(key, v)]
  | (k, w) :: rest, key, v =>
    if k = key then (k, v) :: rest else (k, w) :: insertKey rest key v

/-- Embedding of `ReferenceField` (cascade.go): a (bson name, value) pair. -/
structure ReferenceField where
  BsonName : String
  Value : BVal
deriving DecidableEq, Repr

/-- Relation type constant `REL_MANY` (cascade.go, first of the iota pair). -/
def REL_MANY : Nat := 0

/-- Relation type constant `REL_ONE` (cascade.go, second of the iota pair). -/
def REL_ONE : Nat := 1

/-- Embedding of `CascadeConfig` (cascade.go).  The target `Collection` is
identified by name; the `Instance` prototype is not needed by the model
(fetched documents are represented directly, see `DocM`). -/
structure CascadeConfig where
  Collection : String
  RelType : Nat
  ThroughProp : String
  Query : BsonM
  OldQuery : BsonM
  Nest : Bool
  Properties : List String
  Data : BsonM
  RemoveOnly : Bool
  ReferenceQuery : List ReferenceField
deriving DecidableEq, Repr

/-- Values assigned by a `$set` update document: `null`, a scalar, or a whole
embedded document (the cascaded `Data` written under `ThroughProp`). -/
inductive SetVal where
  | svnull
  | svval (v : BVal)
  | svdoc (d : BsonM)
deriving DecidableEq, Repr

/-- Update operations issued against the store via `UpdateMany`, in the three
operator shapes the cascade code builds (`$set`, `$pull`, `$push`). -/
inductive Op where
  | set (coll : String) (query : BsonM) (assigns : List (String × SetVal))
  | pull (coll : String) (query : BsonM) (prop : String) (cond : BsonM)
  | push (coll : String) (query : BsonM) (prop : String) (data : BsonM)
deriving DecidableEq, Repr

/-- Errors returned by store operations and by the cascade functions. -/
abbrev Err := String

/-- One target-collection document as the store model sees it: scalar fields
(used for query matching and `$set` of scalars), embedded single documents
(`$set` of a whole `Data` document), and embedded arrays keyed by property
name (`$pull`/`$push` targets). -/
structure OwnerDoc where
  coll : String
  fields : BsonM
  subdocs : List (String × BsonM)
  arrays : List (String × List BsonM)
deriving DecidableEq, Repr

/-- The store: all documents of all collections. -/
abbrev Store := List OwnerDoc

/-- Query matching: every pair of the query document must equal the
corresponding scalar field of the document. -/
def matchesQuery (q : BsonM) (d : OwnerDoc) : Bool :=
  q.all (fun kv => lookupKey d.fields kv.1 = some kv.2)

/-- Array-element matching for `$pull`: every pair of the condition document
must equal the corresponding field of the array entry. -/
def entryMatches (cond : BsonM) (e : BsonM) : Bool :=
  cond.all (fun kv => lookupKey e kv.1 = some kv.2)

/-- The embedded array stored under property `prop` (empty if absent). -/
def getArr (d : OwnerDoc) (prop : String) : List BsonM :=
  (lookupKey d.arrays prop).getD []

/-- Replace the embedded array stored under property `prop`. -/
def setArr (d : OwnerDoc) (prop : String) (a : List BsonM) : OwnerDoc :=
  { d with arrays := insertKey d.arrays prop a }

/-- Apply one `$set` assignment to a document. -/
def applyAssign (d : OwnerDoc) (kv : String × SetVal) : OwnerDoc :=
  match kv.2 with
  | .svnull => { d with fields := insertKey d.fields kv.1 .vnull }
  | .svval v => { d with fields := insertKey d.fields kv.1 v }
  | .svdoc m => { d with subdocs := insertKey d.subdocs kv.1 m }

/-- Semantics of one `UpdateMany` call: the update is applied to every
document of the named collection that matches the query. -/
def applyOp (s : Store) (op : Op) : Store :=
  match op with
  | .set coll q assigns =>
    s.map (fun d =>
      if d.coll = coll ∧ matchesQuery q d then assigns.foldl applyAssign d else d)
  | .pull coll q prop cond =>
    s.map (fun d =>
      if d.coll = coll ∧ matchesQuery q d then
        setArr d prop ((getArr d prop).filter (fun e => ! entryMatches cond e))
      else d)
  | .push coll q prop data =>
    s.map (fun d =>
      if d.coll = coll ∧ matchesQuery q d then
        setArr d prop (getArr d prop ++ [data])
      else d)

/-- Execution state of a cascade run: store contents, the count of store
operations issued so far (index into the error oracle), and the ordered
trace of issued operations. -/
structure ExecSt where
  store : Store
  ctr : Nat
  trace : List Op
deriving DecidableEq, Repr

/-- An error oracle assigns to the i-th issued operation of a run the error
that operation returns (`none` = success). -/
abbrev Oracle := Nat → Option Err

/-- Issue one `UpdateMany` call: consult the oracle, apply the operation to
the store when it succeeds, record it in the trace either way, and return
the operation's error. -/
def issueOp (oracle : Oracle) (st : ExecSt) (op : Op) : ExecSt × Option Err :=
  let e := oracle st.ctr
  let store' := match e with
    | none => applyOp st.store op
    | some _ => st.store
  (⟨store', st.ctr + 1, st.trace ++ [op]⟩, e)

/-- The `$pull` condition document built from `conf.ReferenceQuery`
(cascade.go lines 206-209 / 149-152): `q[f.BsonName] = f.Value` for each
reference field, with map-assignment (overwrite) semantics. -/
def pullCond (conf : CascadeConfig) : BsonM :=
  conf.ReferenceQuery.foldl (fun q f => insertKey q f.BsonName f.Value) []

/-- The `$set` assignments of the cleanup update (cascade.go lines 169-179 /
131-141): null out `ThroughProp` when set, otherwise each of `Properties`. -/
def cleanupAssigns (conf : CascadeConfig) : List (String × SetVal) :=
  if conf.ThroughProp.length > 0 then [(conf.ThroughProp, SetVal.svnull)]
  else conf.Properties.map (fun p => (p, SetVal.svnull))

/-- The `$set` assignments of the REL_ONE write update (cascade.go lines
188-196): `Data` under `ThroughProp` when set, otherwise each field of
`Data` directly at the root. -/
def oneWriteAssigns (conf : CascadeConfig) : List (String × SetVal) :=
  if conf.ThroughProp.length > 0 then [(conf.ThroughProp, SetVal.svdoc conf.Data)]
  else conf.Data.map (fun kv => (kv.1, SetVal.svval kv.2))

/-- Embedding of `cascadeSaveWithConfig` (cascade.go lines 161-233).  The
returned error is the one the Go function returns; note that in the Go code
a failing intermediate `UpdateMany` never aborts the function — only the
error of the operation that reaches a `return` is propagated. -/
def cascadeSaveWithConfig (oracle : Oracle) (conf : CascadeConfig) (st : ExecSt) :
    ExecSt × Option Err :=
  if conf.RelType = REL_ONE then
    if conf.OldQuery.length > 0 then
      let r1 := issueOp oracle st (Op.set conf.Collection conf.OldQuery (cleanupAssigns conf))
      if conf.RemoveOnly then r1
      else issueOp oracle r1.1 (Op.set conf.Collection conf.Query (oneWriteAssigns conf))
    else
      issueOp oracle st (Op.set conf.Collection conf.Query (oneWriteAssigns conf))
  else if conf.RelType = REL_MANY then
    let q := pullCond conf
    if conf.OldQuery.length > 0 then
      let r1 := issueOp oracle st (Op.pull conf.Collection conf.OldQuery conf.ThroughProp q)
      if conf.RemoveOnly then r1
      else
        let r2 := issueOp oracle r1.1 (Op.pull conf.Collection conf.Query conf.ThroughProp q)
        issueOp oracle r2.1 (Op.push conf.Collection conf.Query conf.ThroughProp conf.Data)
    else
      let r2 := issueOp oracle st (Op.pull conf.Collection conf.Query conf.ThroughProp q)
      issueOp oracle r2.1 (Op.push conf.Collection conf.Query conf.ThroughProp conf.Data)
  else
    (st, some "invalid relation type")

/-- Embedding of `cascadeDeleteWithConfig` (cascade.go lines 127-158). -/
def cascadeDeleteWithConfig (oracle : Oracle) (conf : CascadeConfig) (st : ExecSt) :
    ExecSt × Option Err :=
  if conf.RelType = REL_ONE then
    issueOp oracle st (Op.set conf.Collection conf.Query (cleanupAssigns conf))
  else if conf.RelType = REL_MANY then
    issueOp oracle st (Op.pull conf.Collection conf.Query conf.ThroughProp (pullCond conf))
  else
    (st, some "invalid relation type")

mutual
/-- A document as `CascadeSave` sees it: its id (`doc.GetID()`) and, when the
document implements the `CascadingDocument` capability, the list the Go code
obtains from `GetCascade` — `none` models a document that does not implement
the capability. -/
inductive DocM : Type where
  | mk : BVal → Option (List CNode) → DocM

/-- One entry of a document's cascade list: the `CascadeConfig` together with
the outcome of the `conf.Collection.Find(conf.Query)` fetch the Go loop would
perform when `conf.Nest` is set (the documents the result-set iteration
yields, or the fetch error). -/
inductive CNode : Type where
  | mk : CascadeConfig → Except Err (List DocM) → CNode
end

/-- The id of a `DocM` (embedding of `doc.GetID()`). -/
def DocM.getID : DocM → BVal
  | .mk id _ => id

/-- The optional cascade list of a `DocM` (the `CascadingDocument` capability). -/
def DocM.cascade : DocM → Option (List CNode)
  | .mk _ c => c

/-- Error-propagating sequencing, the Go `if err != nil { return err }`
pattern of the `CascadeSave` loops: an error aborts with the state reached so
far (no rollback), a success continues with the continuation. -/
def andThenE (r : ExecSt × Option Err) (k : ExecSt → ExecSt × Option Err) :
    ExecSt × Option Err :=
  match r with
  | (st1, some e) => (st1, some e)
  | (st1, none) => k st1

mutual
/-- Embedding of `CascadeSave` (cascade.go lines 70-98): a no-op success for
non-cascading documents, otherwise the in-order execution of the cascade
configs. -/
def CascadeSave (oracle : Oracle) (doc : DocM) (st : ExecSt) : ExecSt × Option Err :=
  match doc with
  | .mk _ none => (st, none)
  | .mk id (some nodes) => cascadeSaveConfigs oracle id nodes st

/-- The per-config loop of `CascadeSave` (cascade.go lines 74-95): default an
empty `ReferenceQuery` to `[("_id", doc.GetID())]`, run the per-config save,
abort on its error, and when `Nest` is set re-fetch the `Query` targets and
recursively cascade-save each of them. -/
def cascadeSaveConfigs (oracle : Oracle) (id : BVal) :
    List CNode → ExecSt → ExecSt × Option Err
  | [], st => (st, none)
  | .mk conf fetch :: rest, st =>
    let conf' :=
      if conf.ReferenceQuery.length = 0 then
        { conf with ReferenceQuery := [⟨"_id", id⟩] }
      else conf
    andThenE (cascadeSaveWithConfig oracle conf' st) (fun st1 =>
      if conf'.Nest then
        match fetch with
        | .error e => (st1, some e)
        | .ok docs =>
          andThenE (cascadeSaveDocs oracle docs st1) (fun st2 =>
            cascadeSaveConfigs oracle id rest st2)
      else cascadeSaveConfigs oracle id rest st1)

/-- The nested iteration of `CascadeSave` over re-fetched owner documents
(cascade.go lines 87-92). -/
def cascadeSaveDocs (oracle : Oracle) : List DocM → ExecSt → ExecSt × Option Err
  | [], st => (st, none)
  | d :: ds, st =>
    andThenE (CascadeSave oracle d st) (fun st1 => cascadeSaveDocs oracle ds st1)
end

/-- Outcome of running a piece of Go code that may `panic`. -/
inductive GoResult (α : Type) where
  | ok (a : α)
  | panicked (msg : String)
deriving DecidableEq, Repr

/-- A document as `CascadeDelete` sees it: the result of
`reflections.GetField(doc, "Id")` (`none` models the reflective access
failing) and the optional `GetCascade` capability. -/
structure DocDel where
  idField : Option BVal
  cascade : Option (List CascadeConfig)

/-- The per-config loop of `CascadeDelete` (cascade.go lines 110-121):
default an empty `ReferenceQuery` from the reflective `Id` access —
panicking when that access fails — then run the per-config delete, whose
result and error are discarded. -/
def cascadeDeleteConfigs (oracle : Oracle) (idField : Option BVal) :
    List CascadeConfig → ExecSt → GoResult ExecSt
  | [], st => .ok st
  | conf :: rest, st =>
    if conf.ReferenceQuery.length = 0 then
      match idField with
      | none => .panicked "reflections: could not read field Id"
      | some id =>
        let conf' := { conf with ReferenceQuery := [⟨"_id", id⟩] }
        cascadeDeleteConfigs oracle idField rest (cascadeDeleteWithConfig oracle conf' st).1
    else
      cascadeDeleteConfigs oracle idField rest (cascadeDeleteWithConfig oracle conf st).1

/-- Embedding of `CascadeDelete` (cascade.go lines 101-124): a no-op for
documents without the cascading capability, otherwise the per-config loop.
The Go function returns nothing; per-config errors are discarded, and only a
panic escapes. -/
def CascadeDelete (oracle : Oracle) (doc : DocDel) (st : ExecSt) : GoResult ExecSt :=
  match doc.cascade with
  | none => .ok st
  | some confs => cascadeDeleteConfigs oracle doc.idField confs st

/-! ### Field-path projector (`MapFromCascadeProperties`, cascade.go 237-280) -/

/-- A value in the projector's world: the source document and the built
result are trees of scalars and string-keyed mappings
(`map[string]interface{}`). -/
inductive MVal where
  | mnull
  | mstr (s : String)
  | mint (n : Int)
  | mmap (entries : List (String × MVal))

/-- Character-level splitting on `'.'`, with the semantics of Go's
`strings.Split(s, ".")` (an empty string yields one empty segment, adjacent
dots yield empty segments). -/
def splitDotsChars : List Char → List (List Char)
  | [] => [[]]
  | c :: rest =>
    let r := splitDotsChars rest
    if c = '.' then [] :: r
    else
      match r with
      | [] => [[c]]
      | h :: t => (c :: h) :: t

/-- Embedding of `strings.Split(prop, ".")`. -/
def splitDots (s : String) : List String :=
  (splitDotsChars s.toList).map (fun l => String.mk l)

/-- Resolution of a segment path through the nested source document,
modelling `dotaccess.Get`: descend through mappings by key; `none` models the
error case (the Go call sites discard that error and use a nil value). -/
def dotGetSegs : MVal → List String → Option MVal
  | v, [] => some v
  | .mmap entries, s :: rest =>
    match lookupKey entries s with
    | some v => dotGetSegs v rest
    | none => none
  | _, _ :: _ => none

/-- Embedding of `dotaccess.Get(doc, prop)` with the error discarded: a
failed resolution yields the nil value, as at the call sites of
`MapFromCascadeProperties`. -/
def dotGetD (doc : MVal) (prop : String) : MVal :=
  (dotGetSegs doc (splitDots prop)).getD .mnull

/-- Descent through the intermediate segments of a multi-segment path
(cascade.go lines 250-266, with the in-place mutation of nested maps
rendered as recursive reconstruction): an existing mapping is entered, a
missing segment creates a fresh mapping, and an existing non-mapping value
panics; the leaf key is then bound to the resolved value (line 275). -/
def insertPath (data : List (String × MVal)) :
    List String → String → MVal → GoResult (List (String × MVal))
  | [], leaf, val => .ok (insertKey data leaf val)
  | s :: rest, leaf, val =>
    match lookupKey data s with
    | some (MVal.mmap m) =>
      match insertPath m rest leaf val with
      | .ok m' => .ok (insertKey data s (MVal.mmap m'))
      | .panicked msg => .panicked msg
    | some _ => .panicked "Cannot access non-map property via dot notation"
    | none =>
      match insertPath [] rest leaf val with
      | .ok m' => .ok (insertKey data s (MVal.mmap m'))
      | .panicked msg => .panicked msg

/-- Embedding of `MapFromCascadeProperties` (cascade.go lines 237-280): fold
the property paths into the result mapping; a single-segment path binds the
top-level key directly, a multi-segment path descends through intermediate
mappings via `insertPath`. -/
def MapFromCascadeProperties (properties : List String) (doc : MVal) :
    GoResult (List (String × MVal)) :=
  properties.foldl
    (fun acc prop =>
      match acc with
      | .panicked msg => .panicked msg
      | .ok data =>
        let split := splitDots prop
        if split.length = 1 then
          .ok (insertKey data prop (dotGetD doc prop))
        else
          insertPath data (split.dropLast) (split.getLastD "") (dotGetD doc prop))
    (.ok [])

/-! ### DiffTracker (spec-modelled) -/

/-- Modelled from the spec: the DiffTracker implementation (`NewDiffTracker`,
`Capture`, `Modified`, `GetOriginalValue`, `Reset`) is not among the provided
source files — only its tests and callers are.  Per spec §3/§4.1 it holds a
snapshot map of field name → last-known-committed value, owned by one
document instance. -/
structure DiffTracker where
  baseline : List (String × BVal)

/-- The live field values of the tracked document instance. -/
abbrev LiveFields := List (String × BVal)

/-- Modelled from the spec: `Capture(doc)` records current values of all
tracked fields as the baseline (spec §4.1). -/
def DiffTracker.Capture (current : LiveFields) : DiffTracker :=
  ⟨current⟩

/-- Modelled from the spec: `Modified(fieldName)` is true iff the field's
live value differs from the captured baseline; an untracked field is
never-modified (spec §4.1). -/
def DiffTracker.Modified (t : DiffTracker) (current : LiveFields) (field : String) : Bool :=
  match lookupKey t.baseline field with
  | none => false
  | some v => ! (lookupKey current field = some v : Bool)

/-- Modelled from the spec: `GetOriginalValue(fieldName)` returns the
baseline value if tracked (spec §4.1). -/
def DiffTracker.GetOriginalValue (t : DiffTracker) (field : String) : Option BVal :=
  lookupKey t.baseline field

/-- Modelled from the spec: `Reset()` re-captures current values as the new
baseline, equivalent to `Capture` using the instance's current state
(spec §4.1). -/
def DiffTracker.Reset (_t : DiffTracker) (current : LiveFields) : DiffTracker :=
  ⟨current⟩

/-! ### Primary save / delete paths (collection.go) -/

/-- Events of the primary `Save` / `DeleteDocument` paths that matter for
ordering: hook invocations, the spawn of the detached cascade task
(`go CascadeSave` / `go CascadeDelete`), and the primary store mutations. -/
inductive PEv where
  | presave
  | spawnCascadeSave
  | upsertId
  | afterSave
  | beforeDelete
  | deleteOne
  | spawnCascadeDelete
  | afterDelete
deriving DecidableEq, Repr

/-- Inputs determining one run of `Collection.Save` (collection.go 118-181):
the outcome of `PreSave`, the `NewTracker` state, whether the id is the zero
id, the outcome of the upsert, and the presence/outcome of the `AfterSave`
hook. -/
structure SaveIn where
  presaveErr : Option Err
  isNew : Bool
  idIsZero : Bool
  upsertErr : Option Err
  hasAfterSave : Bool
  afterSaveErr : Option Err

/-- Embedding of `Collection.Save` (collection.go lines 118-181) as the
ordered list of emitted events plus the returned error.  Note the placement
taken from the source: `go CascadeSave(c, doc)` is launched (line 148)
before the id checks and before `UpsertId` (line 162). -/
def saveRun (i : SaveIn) : List PEv × Option Err :=
  match i.presaveErr with
  | some e => ([PEv.presave], some e)
  | none =>
    let evs := [PEv.presave, PEv.spawnCascadeSave]
    if ! i.isNew ∧ i.idIsZero then
      (evs, some "New tracker says this document isn't new but there is no valid Id field")
    else
      let evs := evs ++ [PEv.upsertId]
      match i.upsertErr with
      | some e => (evs, some e)
      | none =>
        if i.hasAfterSave then
          match i.afterSaveErr with
          | some e => (evs ++ [PEv.afterSave], some e)
          | none => (evs ++ [PEv.afterSave], none)
        else (evs, none)

/-- Inputs determining one run of `Collection.DeleteDocument`
(collection.go 257-286). -/
structure DeleteIn where
  hasBeforeDelete : Bool
  beforeDeleteErr : Option Err
  deleteOneErr : Option Err
  hasAfterDelete : Bool
  afterDeleteErr : Option Err

/-- Embedding of `Collection.DeleteDocument` (collection.go lines 257-286)
as the ordered list of emitted events plus the returned error:
`go CascadeDelete(c, doc)` (line 275) is launched after `DeleteOne`
(line 269) has returned without error. -/
def deleteRun (i : DeleteIn) : List PEv × Option Err :=
  let pre : List PEv := if i.hasBeforeDelete then [PEv.beforeDelete] else []
  match (if i.hasBeforeDelete then i.beforeDeleteErr else none) with
  | some e => (pre, some e)
  | none =>
    let evs := pre ++ [PEv.deleteOne]
    match i.deleteOneErr with
    | some e => (evs, some e)
    | none =>
      let evs := evs ++ [PEv.spawnCascadeDelete]
      if i.hasAfterDelete then
        match i.afterDeleteErr with
        | some e => (evs ++ [PEv.afterDelete], some e)
        | none => (evs ++ [PEv.afterDelete], none)
      else (evs, none)

/-! ### Concrete inputs used by counterexamples and witnesses -/

/-- An error oracle under which every store operation succeeds. -/
def noErr : Oracle := fun _ => none

/-- An empty execution state. -/
def emptySt : ExecSt := ⟨[], 0, []⟩

/-- A `REL_MANY` cascade config as built by the repository's tests: cascade
the child data into the `children` array of the parent matching `Query`. -/
def manyConf : CascadeConfig :=
  { Collection := "parents", RelType := REL_MANY, ThroughProp := "children",
    Query := [("_id", .vid 1)], OldQuery := [], Nest := false, Properties := [],
    Data := [("_id", .vid 7), ("name", .vstr "Foo McGoo")], RemoveOnly := false,
    ReferenceQuery := [⟨"_id", .vid 7⟩] }

/-- A single-parent store: one `parents` document with `_id = 1` and an empty
`children` array. -/
def parentSt : ExecSt :=
  ⟨[⟨"parents", [("_id", .vid 1)], [], [("children", [])]⟩], 0, []⟩

/-! ### Helper lemmas -/

theorem lookupKey_insertKey_self {α : Type} (l : List (String × α)) (k : String) (v : α) :
    lookupKey (insertKey l k v) k = some v := by
  induction l with
  | nil => simp [insertKey, lookupKey]
  | cons hd tl ih =>
    by_cases h : hd.1 = k
    · simp [insertKey, lookupKey, h]
    · simp [insertKey, lookupKey, h, ih]

theorem getArr_setArr_self (d : OwnerDoc) (prop : String) (a : List BsonM) :
    getArr (setArr d prop a) prop = a := by
  simp [getArr, setArr, lookupKey_insertKey_self]

theorem matchesQuery_setArr (q : BsonM) (d : OwnerDoc) (prop : String) (a : List BsonM) :
    matchesQuery q (setArr d prop a) = matchesQuery q d := rfl

theorem countP_filter_not (p : BsonM → Bool) (l : List BsonM) :
    (l.filter (fun e => ! p e)).countP p = 0 := by
  rw [List.countP_eq_zero]
  intro a ha
  have := List.of_mem_filter ha
  simpa using this

/-- Core state fact behind the MANY idempotence property: after a `$pull` of
entries matching `cond` followed by a `$push` of `data` (where `data` itself
matches `cond`), every document of the target collection matching the query
holds exactly one array entry matching `cond`. -/
theorem count_one_after_pull_push (s : Store) (coll : String) (q : BsonM)
    (prop : String) (cond data : BsonM) (hd : entryMatches cond data = true) :
    ∀ d ∈ applyOp (applyOp s (Op.pull coll q prop cond)) (Op.push coll q prop data),
      matchesQuery q d → d.coll = coll →
      ((getArr d prop).countP (entryMatches cond)) = 1 := by
  intro d hmem hq hcoll
  simp only [applyOp, List.map_map, List.mem_map] at hmem
  obtain ⟨d0, _hd0, hcomp⟩ := hmem
  by_cases hc : d0.coll = coll ∧ matchesQuery q d0
  · simp only [Function.comp, if_pos hc] at hcomp
    have hc1 : (setArr d0 prop ((getArr d0 prop).filter (fun e => ! entryMatches cond e))).coll
        = coll ∧ matchesQuery q (setArr d0 prop ((getArr d0 prop).filter
          (fun e => ! entryMatches cond e))) := by
      constructor
      · exact hc.1
      · rw [matchesQuery_setArr]; exact hc.2
    rw [if_pos hc1] at hcomp
    subst hcomp
    rw [getArr_setArr_self, getArr_setArr_self]
    rw [List.countP_append, countP_filter_not]
    simp [List.countP_cons, hd]
  · simp only [Function.comp, if_neg hc] at hcomp
    subst hcomp
    exact absurd ⟨hcoll, hq⟩ hc

/-! ### Claims -/

/-- C6: a document without the cascading capability makes `CascadeSave`
return nil and `CascadeDelete` return normally, and neither issues any
operation against any collection — the execution state (store contents,
operation counter and trace) is returned entirely unchanged. -/
theorem c6_noncascading_is_noop (oracle : Oracle) (id : BVal) (idField : Option BVal)
    (st : ExecSt) :
    CascadeSave oracle (DocM.mk id none) st = (st, none)
    ∧ CascadeDelete oracle ⟨idField, none⟩ st = .ok st :=
  ⟨rfl, rfl⟩

/-- C8: the field-path projector maps a path without a dot to a top-level key
holding the resolved field value, and a multi-segment path to nested mapping
levels whose leaf key is the final segment; projecting `["a", "b.c"]` over a
document with `doc.a = "x"` and `doc.b.c = "y"` yields
`{"a": "x", "b": {"c": "y"}}`. -/
theorem c8_projector_paths :
    (∀ (doc : MVal) (p : String), (splitDots p).length = 1 →
      MapFromCascadeProperties [p] doc = .ok [(p, dotGetD doc p)])
    ∧ MapFromCascadeProperties ["a", "b.c"]
        (.mmap [("a", .mstr "x"), ("b", .mmap [("c", .mstr "y")])])
      = .ok [("a", .mstr "x"), ("b", .mmap [("c", .mstr "y")])] := by
  constructor
  · intro doc p h
    simp [MapFromCascadeProperties, h, insertKey]
  · rfl

/-- Witness for C8: the single-segment case instantiated at a concrete
document and path. -/
theorem c8_projector_paths_witness :
    (splitDots "bar").length = 1
    ∧ MapFromCascadeProperties ["bar"] (.mmap [("bar", .mstr "z")])
      = .ok [("bar", dotGetD (.mmap [("bar", .mstr "z")]) "bar")] :=
  ⟨by decide, c8_projector_paths.1 (.mmap [("bar", .mstr "z")]) "bar" (by decide)⟩

/-- C9: `Reset()` re-captures the instance's current values as the new
comparison baseline (it equals `Capture` of the current state), and
`Modified(field)` on the reset tracker returns false as long as the field's
live value still equals its value at reset time. -/
theorem c9_reset_then_unmodified (t : DiffTracker) (cur cur' : LiveFields) (f : String)
    (h : lookupKey cur' f = lookupKey cur f) :
    (DiffTracker.Reset t cur).Modified cur' f = false
    ∧ DiffTracker.Reset t cur = DiffTracker.Capture cur := by
  refine ⟨?_, rfl⟩
  unfold DiffTracker.Reset DiffTracker.Modified
  cases hl : lookupKey cur f with
  | none => simp [hl]
  | some v => simp [hl, h]

/-- Witness for C9: a tracker over a concrete instance, reset at the current
state and queried immediately. -/
theorem c9_reset_then_unmodified_witness :
    lookupKey [("ParentID", BVal.vid 2)] "ParentID"
      = lookupKey [("ParentID", BVal.vid 2)] "ParentID"
    ∧ ((DiffTracker.Reset ⟨[("ParentID", BVal.vid 1)]⟩
          [("ParentID", BVal.vid 2)]).Modified [("ParentID", BVal.vid 2)] "ParentID" = false
        ∧ DiffTracker.Reset ⟨[("ParentID", BVal.vid 1)]⟩ [("ParentID", BVal.vid 2)]
          = DiffTracker.Capture [("ParentID", BVal.vid 2)]) :=
  ⟨rfl, c9_reset_then_unmodified ⟨[("ParentID", BVal.vid 1)]⟩
    [("ParentID", BVal.vid 2)] [("ParentID", BVal.vid 2)] "ParentID" rfl⟩

/-- Counterexample for C7: the projector does detect the conflict — an
intermediate segment already holding the non-mapping value `"x"` — but it
aborts with a panic (a process-fatal abort in Go), not with a recoverable
error result, refuting the claim as stated. -/
theorem c7_conflict_counterexample :
    MapFromCascadeProperties ["a", "a.b"] (.mmap [("a", .mstr "x")])
      = .panicked "Cannot access non-map property via dot notation" := rfl

/-- C7 (amended): if an intermediate segment of a multi-segment path already
holds a non-mapping value in the result under construction, resolution fails
rather than silently overwriting that value — but the failure is a
process-fatal panic (message "Cannot access non-map property via dot
notation"), not a recoverable error result. -/
theorem c7_conflict_panics :
    (∀ (data : List (String × MVal)) (s leaf : String) (rest : List String)
      (val v : MVal), lookupKey data s = some v → (∀ m, v ≠ MVal.mmap m) →
      insertPath data (s :: rest) leaf val
        = .panicked "Cannot access non-map property via dot notation")
    ∧ MapFromCascadeProperties ["a", "a.b"] (.mmap [("a", .mstr "x")])
      = .panicked "Cannot access non-map property via dot notation" := by
  constructor
  · intro data s leaf rest val v h hnm
    simp only [insertPath]
    rw [h]
    cases v with
    | mnull => rfl
    | mstr s' => rfl
    | mint n => rfl
    | mmap m => exact absurd rfl (hnm m)
  · rfl

/-- Witness for C7 (amended): the descent hits the scalar `"x"` stored under
the intermediate segment `"a"` and panics. -/
theorem c7_conflict_panics_witness :
    lookupKey [("a", MVal.mstr "x")] "a" = some (MVal.mstr "x")
    ∧ insertPath [("a", MVal.mstr "x")] ["a"] "b" MVal.mnull
      = .panicked "Cannot access non-map property via dot notation" :=
  ⟨rfl, c7_conflict_panics.1 [("a", MVal.mstr "x")] "a" "b" [] MVal.mnull
    (MVal.mstr "x") rfl (fun m hm => by simp at hm)⟩

/-- Counterexample for C4: a document whose reflective `Id` access fails,
cascading a config with an empty `ReferenceQuery`, makes `CascadeDelete`
panic — a process-fatal abort, not a recoverable `MissingIdentifier` error
result, refuting the claim as stated. -/
theorem c4_missing_id_counterexample :
    CascadeDelete noErr ⟨none, some [{ manyConf with ReferenceQuery := [] }]⟩ emptySt
      = .panicked "reflections: could not read field Id" := rfl

/-- C4 (amended): in `CascadeDelete`, for each config with an empty
`ReferenceQuery` the default reference is built from the document's `Id`
field as `[("_id", id)]`; a failure to resolve that identifier aborts the
cascade with a panic (process-fatal), not a recoverable `MissingIdentifier`
error result. -/
theorem c4_missing_id_panics (oracle : Oracle) (conf : CascadeConfig)
    (rest : List CascadeConfig) (st : ExecSt) (h : conf.ReferenceQuery.length = 0) :
    CascadeDelete oracle ⟨none, some (conf :: rest)⟩ st
        = .panicked "reflections: could not read field Id"
    ∧ ∀ id, CascadeDelete oracle ⟨some id, some (conf :: rest)⟩ st
        = cascadeDeleteConfigs oracle (some id) rest
            (cascadeDeleteWithConfig oracle
              { conf with ReferenceQuery := [⟨"_id", id⟩] } st).1 := by
  constructor
  · simp [CascadeDelete, cascadeDeleteConfigs, h]
  · intro id
    simp [CascadeDelete, cascadeDeleteConfigs, h]

/-- Witness for C4 (amended): a resolvable identifier is installed as the
default reference query of the executed config. -/
theorem c4_missing_id_panics_witness :
    ({ manyConf with ReferenceQuery := ([] : List ReferenceField) }).ReferenceQuery.length = 0
    ∧ CascadeDelete noErr ⟨some (.vid 5),
        some [{ manyConf with ReferenceQuery := [] }]⟩ emptySt
      = cascadeDeleteConfigs noErr (some (.vid 5)) []
          (cascadeDeleteWithConfig noErr
            { manyConf with ReferenceQuery := [⟨"_id", .vid 5⟩] } emptySt).1 :=
  ⟨rfl, (c4_missing_id_panics noErr { manyConf with ReferenceQuery := [] } [] emptySt rfl).2
    (.vid 5)⟩

/-- A REL_MANY config cut short by `RemoveOnly` with a nonempty `OldQuery`
(used against claim C1). -/
def remOnlyManyConf : CascadeConfig :=
  { manyConf with RemoveOnly := true, OldQuery := [("_id", .vid 9)] }

/-- A REL_MANY config whose `Data` does not match its `ReferenceQuery`
(used against claim C1). -/
def badDataManyConf : CascadeConfig :=
  { manyConf with Data := [("name", .vstr "x")] }

/-- Counterexample for C1: the claim quantifies over every REL_MANY config.
First input: with `RemoveOnly = true` and a nonempty `OldQuery` the operation
issues only the `OldQuery` pull — no pull/push at `Query` at all — and the
owner matching `Query` ends with zero entries matching `ReferenceQuery`, not
one.  Second input: when `Data` does not match `ReferenceQuery`, a
`Query`-matching owner still has zero matching entries after a save, and a
repeated save duplicates `Data` in the array. -/
theorem c1_many_idempotent_counterexample :
    matchesQuery remOnlyManyConf.Query ⟨"parents", [("_id", .vid 1)], [], [("children", [])]⟩
      = true
    ∧ (cascadeSaveWithConfig noErr remOnlyManyConf parentSt).1.trace
      = [Op.pull "parents" [("_id", .vid 9)] "children" [("_id", .vid 7)]]
    ∧ ((cascadeSaveWithConfig noErr remOnlyManyConf parentSt).1.store.map
        (fun d => (getArr d "children").countP (entryMatches [("_id", .vid 7)]))) = [0]
    ∧ ((cascadeSaveWithConfig noErr badDataManyConf parentSt).1.store.map
        (fun d => (getArr d "children").countP (entryMatches [("_id", .vid 7)]))) = [0]
    ∧ (cascadeSaveWithConfig noErr badDataManyConf
          (cascadeSaveWithConfig noErr badDataManyConf parentSt).1).1.store
      = [⟨"parents", [("_id", .vid 1)], [],
          [("children", [[("name", .vstr "x")], [("name", .vstr "x")]])]⟩] := by
  decide

/-- C1 (amended): for every REL_MANY cascade config with `RemoveOnly = false`,
the per-config save operation always issues the `$pull` removing array
entries matching `ReferenceQuery` from documents matching `Query` immediately
followed by the `$push` of `Data` into that array (after the optional
`OldQuery` pull); hence — provided `Data` itself matches `ReferenceQuery`,
as it does for the default reference query built from the source document's
id — after a save (and so after arbitrarily repeated saves), every owner
matching `Query` holds exactly one array entry matching `ReferenceQuery`. -/
theorem c1_many_pull_then_push (oracle : Oracle) (conf : CascadeConfig) (st : ExecSt)
    (h1 : conf.RelType = REL_MANY) (h2 : conf.RemoveOnly = false) :
    (cascadeSaveWithConfig oracle conf st).1.trace
      = st.trace
        ++ (if conf.OldQuery.length > 0 then
              [Op.pull conf.Collection conf.OldQuery conf.ThroughProp (pullCond conf)]
            else [])
        ++ [Op.pull conf.Collection conf.Query conf.ThroughProp (pullCond conf),
            Op.push conf.Collection conf.Query conf.ThroughProp conf.Data]
    ∧ (entryMatches (pullCond conf) conf.Data = true →
        ∀ d ∈ (cascadeSaveWithConfig noErr conf st).1.store,
          matchesQuery conf.Query d → d.coll = conf.Collection →
          ((getArr d conf.ThroughProp).countP (entryMatches (pullCond conf))) = 1) := by
  have hne : ¬ conf.RelType = REL_ONE := by
    rw [h1]; simp [REL_MANY, REL_ONE]
  by_cases ho : conf.OldQuery.length > 0
  · constructor
    · simp [cascadeSaveWithConfig, hne, h1, h2, ho, issueOp, REL_MANY, REL_ONE]
    · intro hd d hmem hq hc
      refine count_one_after_pull_push
        (applyOp st.store
          (Op.pull conf.Collection conf.OldQuery conf.ThroughProp (pullCond conf)))
        conf.Collection conf.Query conf.ThroughProp (pullCond conf) conf.Data hd d ?_ hq hc
      simpa [cascadeSaveWithConfig, hne, h1, h2, ho, issueOp, noErr, REL_MANY, REL_ONE] using hmem
  · constructor
    · simp [cascadeSaveWithConfig, hne, h1, h2, ho, issueOp, REL_MANY, REL_ONE]
    · intro hd d hmem hq hc
      refine count_one_after_pull_push st.store
        conf.Collection conf.Query conf.ThroughProp (pullCond conf) conf.Data hd d ?_ hq hc
      simpa [cascadeSaveWithConfig, hne, h1, h2, ho, issueOp, noErr, REL_MANY, REL_ONE] using hmem

/-- Witness for C1 (amended): the test-style config `manyConf` saved over a
one-parent store leaves the parent with exactly one matching child entry. -/
theorem c1_many_pull_then_push_witness :
    manyConf.RelType = REL_MANY ∧ manyConf.RemoveOnly = false
    ∧ entryMatches (pullCond manyConf) manyConf.Data = true
    ∧ OwnerDoc.mk "parents" [("_id", .vid 1)] []
        [("children", [[("_id", .vid 7), ("name", .vstr "Foo McGoo")]])]
      ∈ (cascadeSaveWithConfig noErr manyConf parentSt).1.store
    ∧ ((getArr
          (OwnerDoc.mk "parents" [("_id", .vid 1)] []
            [("children", [[("_id", .vid 7), ("name", .vstr "Foo McGoo")]])])
          manyConf.ThroughProp).countP (entryMatches (pullCond manyConf))) = 1 :=
  ⟨rfl, rfl, by decide, by decide,
    (c1_many_pull_then_push noErr manyConf parentSt rfl rfl).2 (by decide)
      (OwnerDoc.mk "parents" [("_id", .vid 1)] []
        [("children", [[("_id", .vid 7), ("name", .vstr "Foo McGoo")]])])
      (by decide) (by decide) (by decide)⟩

/-- A REL_ONE config with `RemoveOnly = true` but an empty `OldQuery`
(used against claim C2). -/
def remOnlyOneConf : CascadeConfig :=
  { manyConf with RelType := REL_ONE, ThroughProp := "child", RemoveOnly := true }

/-- A REL_MANY config with `RemoveOnly = true` but an empty `OldQuery`
(used against claim C2). -/
def remOnlyNoOldManyConf : CascadeConfig :=
  { manyConf with RemoveOnly := true }

/-- Counterexample for C2: with `RemoveOnly = true` but an empty `OldQuery`,
the per-config save still writes the new embed — a `$set` of `Data` at the
`Query` targets in the REL_ONE case, and a `$push` of `Data` in the REL_MANY
case — because the source only consults `RemoveOnly` inside the
`len(OldQuery) > 0` block. -/
theorem c2_remove_only_counterexample :
    remOnlyOneConf.RemoveOnly = true
    ∧ (cascadeSaveWithConfig noErr remOnlyOneConf parentSt).1.trace
      = [Op.set "parents" [("_id", .vid 1)] [("child",
          SetVal.svdoc [("_id", .vid 7), ("name", .vstr "Foo McGoo")])]]
    ∧ remOnlyNoOldManyConf.RemoveOnly = true
    ∧ (cascadeSaveWithConfig noErr remOnlyNoOldManyConf parentSt).1.trace
      = [Op.pull "parents" [("_id", .vid 1)] "children" [("_id", .vid 7)],
         Op.push "parents" [("_id", .vid 1)] "children"
           [("_id", .vid 7), ("name", .vstr "Foo McGoo")]] := by
  decide

/-- C2 (amended): for a config with `RemoveOnly = true` and a nonempty
`OldQuery`, only the cleanup half runs — a single `$set`-to-null at
`OldQuery` for REL_ONE, a single `$pull` of the `ReferenceQuery` entry at
`OldQuery` for REL_MANY — and no new embed is written.  When `OldQuery` is
empty, however, `RemoveOnly` has no effect: the operation behaves exactly as
with `RemoveOnly = false` and does write the new embed. -/
theorem c2_remove_only_cleanup_half (oracle : Oracle) (conf : CascadeConfig) (st : ExecSt)
    (h : conf.RemoveOnly = true) :
    (conf.OldQuery.length > 0 →
      (conf.RelType = REL_ONE →
        cascadeSaveWithConfig oracle conf st
          = issueOp oracle st (Op.set conf.Collection conf.OldQuery (cleanupAssigns conf)))
      ∧ (conf.RelType = REL_MANY →
        cascadeSaveWithConfig oracle conf st
          = issueOp oracle st
              (Op.pull conf.Collection conf.OldQuery conf.ThroughProp (pullCond conf))))
    ∧ (conf.OldQuery = [] →
        cascadeSaveWithConfig oracle conf st
          = cascadeSaveWithConfig oracle { conf with RemoveOnly := false } st) := by
  constructor
  · intro ho
    constructor
    · intro hr
      simp [cascadeSaveWithConfig, hr, h, ho]
    · intro hr
      have hne : ¬ conf.RelType = REL_ONE := by
        rw [hr]; simp [REL_MANY, REL_ONE]
      simp [cascadeSaveWithConfig, hne, hr, h, ho, REL_MANY, REL_ONE]
  · intro ho
    simp [cascadeSaveWithConfig, ho, oneWriteAssigns, pullCond, cleanupAssigns]

/-- Witness for C2 (amended): a remove-only REL_MANY config with an old
owner issues exactly the single `$pull` at `OldQuery`. -/
theorem c2_remove_only_cleanup_half_witness :
    remOnlyManyConf.RemoveOnly = true
    ∧ remOnlyManyConf.OldQuery.length > 0
    ∧ remOnlyManyConf.RelType = REL_MANY
    ∧ cascadeSaveWithConfig noErr remOnlyManyConf parentSt
      = issueOp noErr parentSt
          (Op.pull remOnlyManyConf.Collection remOnlyManyConf.OldQuery
            remOnlyManyConf.ThroughProp (pullCond remOnlyManyConf)) :=
  ⟨rfl, by decide, rfl,
    ((c2_remove_only_cleanup_half noErr remOnlyManyConf parentSt rfl).1 (by decide)).2 rfl⟩

/-- C10: in the REL_MANY save path (with `RemoveOnly = false`), the error of
the idempotency `$pull` issued against the current `Query` targets is
discarded: the per-config result is exactly the oracle's answer for the
final `$push`, and an oracle that fails the idempotency pull while letting
every other operation succeed still yields a nil (successful) result — which
`CascadeSave` then propagates as success. -/
theorem c10_query_pull_error_discarded (oracle : Oracle) (conf : CascadeConfig)
    (st : ExecSt) (h1 : conf.RelType = REL_MANY) (h2 : conf.RemoveOnly = false) :
    (cascadeSaveWithConfig oracle conf st).2
      = oracle (st.ctr + (if conf.OldQuery.length > 0 then 2 else 1))
    ∧ ∀ e : Err,
        (cascadeSaveWithConfig
          (fun n => if n = st.ctr + (if conf.OldQuery.length > 0 then 1 else 0)
                    then some e else none)
          conf st).2 = none := by
  have hne : ¬ conf.RelType = REL_ONE := by
    rw [h1]; simp [REL_MANY, REL_ONE]
  by_cases ho : conf.OldQuery.length > 0
  · constructor
    · simp [cascadeSaveWithConfig, hne, h1, h2, ho, issueOp, REL_MANY, REL_ONE]
    · intro e
      simp [cascadeSaveWithConfig, hne, h1, h2, ho, issueOp, REL_MANY, REL_ONE]
  · constructor
    · simp [cascadeSaveWithConfig, hne, h1, h2, ho, issueOp, REL_MANY, REL_ONE]
    · intro e
      simp [cascadeSaveWithConfig, hne, h1, h2, ho, issueOp, REL_MANY, REL_ONE]

/-- Witness for C10: with the test-style config over a one-parent store, an
oracle failing exactly the idempotency pull still produces a nil result. -/
theorem c10_query_pull_error_discarded_witness :
    manyConf.RelType = REL_MANY ∧ manyConf.RemoveOnly = false
    ∧ (cascadeSaveWithConfig
        (fun n => if n = parentSt.ctr + (if manyConf.OldQuery.length > 0 then 1 else 0)
                  then some "pull failed" else none)
        manyConf parentSt).2 = none :=
  ⟨rfl, rfl,
    (c10_query_pull_error_discarded noErr manyConf parentSt rfl rfl).2 "pull failed"⟩

theorem andThenE_err (st1 : ExecSt) (e : Err) (k : ExecSt → ExecSt × Option Err) :
    andThenE (st1, some e) k = (st1, some e) := rfl

theorem andThenE_ok (st1 : ExecSt) (k : ExecSt → ExecSt × Option Err) :
    andThenE (st1, none) k = k st1 := rfl

theorem andThenE_assoc (r : ExecSt × Option Err) (k1 k2 : ExecSt → ExecSt × Option Err) :
    andThenE (andThenE r k1) k2 = andThenE r (fun s => andThenE (k1 s) k2) := by
  rcases r with ⟨s, e⟩
  cases e <;> rfl

theorem andThenE_congr (r : ExecSt × Option Err) (k1 k2 : ExecSt → ExecSt × Option Err)
    (h : ∀ s, k1 s = k2 s) : andThenE r k1 = andThenE r k2 := by
  rcases r with ⟨s, e⟩
  cases e <;> simp [andThenE, h]

theorem cascadeSaveConfigs_nil (oracle : Oracle) (id : BVal) (st : ExecSt) :
    cascadeSaveConfigs oracle id [] st = (st, none) := by
  rw [cascadeSaveConfigs]

theorem cascadeSaveConfigs_cons (oracle : Oracle) (id : BVal) (conf : CascadeConfig)
    (fetch : Except Err (List DocM)) (rest : List CNode) (st : ExecSt) :
    cascadeSaveConfigs oracle id (CNode.mk conf fetch :: rest) st =
      andThenE (cascadeSaveWithConfig oracle
        (if conf.ReferenceQuery.length = 0 then
          { conf with ReferenceQuery := [⟨"_id", id⟩] }
         else conf) st) (fun st1 =>
        if (if conf.ReferenceQuery.length = 0 then
              { conf with ReferenceQuery := [⟨"_id", id⟩] }
            else conf).Nest = true then
          match fetch with
          | .error e => (st1, some e)
          | .ok docs =>
            andThenE (cascadeSaveDocs oracle docs st1) (fun st2 =>
              cascadeSaveConfigs oracle id rest st2)
        else cascadeSaveConfigs oracle id rest st1) := by
  rw [cascadeSaveConfigs]

/-- Sequencing lemma for the per-config loop: running a concatenation of
config lists runs the prefix first and continues with the suffix only when
the prefix produced no error, from exactly the prefix's final state. -/
theorem cascadeSaveConfigs_append (oracle : Oracle) (id : BVal) (l1 l2 : List CNode) :
    ∀ st : ExecSt, cascadeSaveConfigs oracle id (l1 ++ l2) st =
      andThenE (cascadeSaveConfigs oracle id l1 st)
        (fun st1 => cascadeSaveConfigs oracle id l2 st1) := by
  induction l1 with
  | nil =>
    intro st
    rw [List.nil_append, cascadeSaveConfigs_nil, andThenE_ok]
  | cons n t ih =>
    intro st
    cases n with
    | mk conf fetch =>
      rw [List.cons_append, cascadeSaveConfigs_cons, cascadeSaveConfigs_cons,
        andThenE_assoc]
      apply andThenE_congr
      intro st1
      by_cases hn : (if conf.ReferenceQuery.length = 0 then
          { conf with ReferenceQuery := [⟨"_id", id⟩] }
        else conf).Nest = true
      · rw [if_pos hn, if_pos hn]
        cases fetch with
        | error e => rfl
        | ok docs =>
          rw [andThenE_assoc]
          apply andThenE_congr
          intro st2
          exact ih st2
      · rw [if_neg hn, if_neg hn]
        exact ih st1

/-- C5: `CascadeSave` executes a document's cascade configs strictly in
order: running the whole list equals running any prefix first and — only
when the prefix produced no error — continuing with the remaining configs
from the prefix's final state; when the prefix fails, its error and its
state (the retained, un-rolled-back effects of the configs that already ran,
with no trace of any later config) are returned to the caller as is. -/
theorem c5_first_error_aborts (oracle : Oracle) (id : BVal) (l1 l2 : List CNode)
    (st : ExecSt) :
    CascadeSave oracle (DocM.mk id (some (l1 ++ l2))) st =
      andThenE (cascadeSaveConfigs oracle id l1 st)
        (fun st1 => cascadeSaveConfigs oracle id l2 st1) :=
  cascadeSaveConfigs_append oracle id l1 l2 st

/-- Counterexample for C3: in `Collection.Save` the cascade task is spawned
before the upsert.  First run: the upsert fails, yet the cascade task was
already launched (and launched before the upsert).  Second run: the save
aborts at the id check and no upsert is ever issued, yet the cascade task
was launched. -/
theorem c3_spawn_order_counterexample :
    saveRun ⟨none, true, false, some "boom", false, none⟩
      = ([PEv.presave, PEv.spawnCascadeSave, PEv.upsertId], some "boom")
    ∧ saveRun ⟨none, false, true, none, false, none⟩
      = ([PEv.presave, PEv.spawnCascadeSave],
         some "New tracker says this document isn't new but there is no valid Id field") := by
  decide

/-- C3 (amended): for `DeleteDocument` the cascade orchestrator is launched
as a detached background task only after the primary `DeleteOne` has been
issued and has succeeded; for `Save`, however, the cascade task is launched
before the upsert is issued (directly after the pre-save hooks and
time-stamping, before the id check).  In both paths the spawn is a detached
task the originating call never waits on. -/
theorem c3_spawn_after_primary (sIn : SaveIn) (dIn : DeleteIn) :
    (PEv.spawnCascadeDelete ∈ (deleteRun dIn).1 →
      dIn.deleteOneErr = none
      ∧ (deleteRun dIn).1.indexOf PEv.deleteOne
          < (deleteRun dIn).1.indexOf PEv.spawnCascadeDelete)
    ∧ (PEv.spawnCascadeSave ∈ (saveRun sIn).1 →
      (saveRun sIn).1.indexOf PEv.spawnCascadeSave
          < (saveRun sIn).1.indexOf PEv.upsertId) := by
  constructor
  · obtain ⟨hb, be, de, ha, ae⟩ := dIn
    cases hb <;> cases be <;> cases de <;> cases ha <;> cases ae <;>
      simp [deleteRun]
  · obtain ⟨pe, hn, hz, ue, hs, ae⟩ := sIn
    cases pe <;> cases hn <;> cases hz <;> cases ue <;> cases hs <;> cases ae <;>
      simp [saveRun]

/-- Witness for C3 (amended): a fully successful delete run spawns the
cascade strictly after `DeleteOne`, and a successful save run spawns the
cascade strictly before the upsert. -/
theorem c3_spawn_after_primary_witness :
    PEv.spawnCascadeDelete ∈ (deleteRun ⟨true, none, none, true, none⟩).1
    ∧ ((deleteRun ⟨true, none, none, true, none⟩).1.indexOf PEv.deleteOne
        < (deleteRun ⟨true, none, none, true, none⟩).1.indexOf PEv.spawnCascadeDelete)
    ∧ ((saveRun ⟨none, true, false, none, true, none⟩).1.indexOf PEv.spawnCascadeSave
        < (saveRun ⟨none, true, false, none, true, none⟩).1.indexOf PEv.upsertId) :=
  ⟨by decide,
   ((c3_spawn_after_primary ⟨none, true, false, none, true, none⟩
      ⟨true, none, none, true, none⟩).1 (by decide)).2,
   (c3_spawn_after_primary ⟨none, true, false, none, true, none⟩
      ⟨true, none, none, true, none⟩).2 (by decide)⟩

end Bongo
